import Mathlib

/-!
Verification development for the Kaufland shipping-label generator
(`getLabel.py`).  The Python source is shallowly embedded: pure helper
functions become Lean functions over `ℚ`/`String`/`List`, the
exception-driven main script becomes an explicit run function over an
environment of external effects, and `Decimal` arithmetic becomes exact
rational arithmetic.
-/

/-- Rounding used by `Decimal.to_integral_value(rounding=ROUND_HALF_UP)`:
round to the nearest integer, ties away from zero. -/
def roundHalfUp (q : ℚ) : ℤ :=
  if 0 ≤ q then ⌊q + 1/2⌋ else ⌈q - 1/2⌉

/-- One row returned by the order query (`fetch_order_rows`).  The Python
code looks a measurement up under alternative column names
(`('weight_gram', 'bgewicht')` …) and treats a missing key and a SQL NULL
identically; both collapse to `Option.none` here.  String-valued columns
are already the result of Python's `str(...)` conversion. -/
structure OrderRow where
  weight : Option ℚ
  width : Option ℚ
  height : Option ℚ
  length : Option ℚ
  code1 : Option String
  belegnr : Option String
  fsrowid : Option String
  deriving Repr, DecidableEq

/-- The aggregate returned by `aggregate_order_values` (the spec's
`AggregatedShipment`). -/
structure AggregatedShipment where
  ids_order_units : List String
  weight_gram : ℤ
  width_cm : ℤ
  height_cm : ℤ
  length_cm : ℤ
  deriving Repr, DecidableEq

/-- `aggregate_order_values.sum_field`: fold the field over all rows with
`Decimal` accumulation, substituting `10` for an absent value, then apply
the multiplier and round with `ROUND_HALF_UP`. -/
def sum_field (rows : List OrderRow) (sel : OrderRow → Option ℚ)
    (multiplier : ℤ) : ℤ :=
  roundHalfUp ((rows.foldl (fun total row => total + ((sel row).getD 10)) 0)
    * (multiplier : ℚ))

/-- The CODE1 collection loop of `aggregate_order_values`: keep each row's
`code1` value, stripped, in row order, discarding NULLs and values that
are blank after stripping. -/
def collect_code_values (rows : List OrderRow) : List String :=
  rows.filterMap fun row =>
    row.code1.bind fun s =>
      let t := s.trim
      if t = "" then none else some t

/-- `aggregate_order_values` (`getLabel.py` lines 334–396); the raised
`ValueError`s become `Except.error`. -/
def aggregate_order_values (rows : List OrderRow) :
    Except String AggregatedShipment :=
  if rows.isEmpty then
    .error "Keine Auftragsdaten vorhanden"
  else if (collect_code_values rows).isEmpty then
    .error "Keine CODE1-Werte in den Auftragsdaten gefunden"
  else
      .ok {
        ids_order_units := collect_code_values rows
        weight_gram := sum_field rows (fun r => r.weight) 1000
        width_cm := sum_field rows (fun r => r.width) 10
        height_cm := sum_field rows (fun r => r.height) 10
        length_cm := sum_field rows (fun r => r.length) 10
      }

/-- The spec's description of a measurement aggregate: the exact decimal
sum over all rows (an absent value contributing `10`), scaled, then
rounded half-up.  Stated independently of the fold in `sum_field`. -/
def specMeasurement (rows : List OrderRow) (sel : OrderRow → Option ℚ)
    (scale : ℤ) : ℤ :=
  roundHalfUp ((scale : ℚ) * (rows.map (fun r => (sel r).getD 10)).sum)

/-- The spec's view of the collected unit identifier codes: trim every
row's code (an absent code becoming blank) and keep the non-blank ones in
row order. -/
def specCodes (rows : List OrderRow) : List String :=
  (rows.map fun r => ((r.code1.getD "").trim)).filter fun t => decide (t ≠ "")

example : sum_field [⟨some 5, none, none, none, none, none, none⟩,
    ⟨none, none, none, none, none, none, none⟩] (fun r => r.weight) 1000
    = 15000 := by with_unfolding_all decide

example : roundHalfUp (5/2) = 3 := by with_unfolding_all decide
example : roundHalfUp (-5/2) = -3 := by with_unfolding_all decide
example : roundHalfUp (5/4) = 1 := by with_unfolding_all decide

theorem foldl_add_eq_sum (f : α → ℚ) (l : List α) (a : ℚ) :
    l.foldl (fun t x => t + f x) a = a + (l.map f).sum := by
  induction l generalizing a with
  | nil => simp
  | cons x xs ih => simp [ih, add_assoc]

theorem sum_field_eq_specMeasurement (rows : List OrderRow)
    (sel : OrderRow → Option ℚ) (m : ℤ) :
    sum_field rows sel m = specMeasurement rows sel m := by
  unfold sum_field specMeasurement
  rw [foldl_add_eq_sum (fun r => (sel r).getD 10) rows 0, zero_add, mul_comm]

theorem roundHalfUp_nearest (q : ℚ) : |(roundHalfUp q : ℚ) - q| ≤ 1/2 := by
  unfold roundHalfUp
  split
  · rw [abs_le]
    constructor
    · have h := Int.lt_floor_add_one (q + 1/2)
      push_cast at h ⊢
      linarith
    · have h := Int.floor_le (q + 1/2)
      push_cast at h ⊢
      linarith
  · rw [abs_le]
    constructor
    · have h := Int.le_ceil (q - 1/2)
      push_cast at h ⊢
      linarith
    · have h := Int.ceil_lt_add_one (q - 1/2)
      push_cast at h ⊢
      linarith

theorem roundHalfUp_tie_away_pos (n : ℕ) :
    roundHalfUp ((n : ℚ) + 1/2) = n + 1 := by
  unfold roundHalfUp
  rw [if_pos (by positivity)]
  have : ((n : ℚ) + 1/2) + 1/2 = (((n : ℤ) + 1 : ℤ) : ℚ) := by push_cast; ring
  rw [this, Int.floor_intCast]

theorem roundHalfUp_tie_away_neg (n : ℕ) :
    roundHalfUp (-((n : ℚ) + 1/2)) = -(n + 1) := by
  unfold roundHalfUp
  rw [if_neg (by simp only [not_le]; have h9 : (0 : ℚ) ≤ (n : ℚ) := Nat.cast_nonneg n; linarith)]
  have : -((n : ℚ) + 1/2) - 1/2 = ((-(n + 1) : ℤ) : ℚ) := by push_cast; ring
  rw [this, Int.ceil_intCast]

theorem collect_code_values_eq_specCodes (rows : List OrderRow) :
    collect_code_values rows = specCodes rows := by
  induction rows with
  | nil => rfl
  | cons r rs ih =>
    unfold collect_code_values specCodes at ih ⊢
    simp only [List.filterMap_cons, List.map_cons, List.filter_cons]
    cases hc : r.code1 with
    | none =>
      have ht : ("" : String).trim = "" := by with_unfolding_all decide
      simp [ht, ih]
    | some s =>
      by_cases h : s.trim = ""
      · simp [h, ih]
      · simp [h, ih]

theorem collect_code_values_eq_nil_iff (rows : List OrderRow) :
    collect_code_values rows = [] ↔
      ∀ r ∈ rows, ((r.code1.getD "").trim) = "" := by
  rw [collect_code_values_eq_specCodes]
  unfold specCodes
  rw [List.filter_eq_nil_iff]
  constructor
  · intro h r hr
    have := h _ (List.mem_map_of_mem (fun r => ((r.code1.getD "").trim)) hr)
    simpa using this
  · intro h t ht
    obtain ⟨r, hr, rfl⟩ := List.mem_map.mp ht
    simpa using h r hr

/-- Model of Python's `str.isalnum`, restricted to ASCII plus the
Latin-1 letter block (U+00C0–U+00FF without the two operator signs
U+00D7, U+00F7).  Python classifies all Unicode letters and digits as
alphanumeric; the restriction covers every input considered here, in
particular the umlaut characters of the spec's examples. -/
def pyIsAlnum (c : Char) : Bool :=
  (48 ≤ c.toNat && c.toNat ≤ 57) || (65 ≤ c.toNat && c.toNat ≤ 90) ||
    (97 ≤ c.toNat && c.toNat ≤ 122) ||
    (192 ≤ c.toNat && c.toNat ≤ 255 && c.toNat ≠ 215 && c.toNat ≠ 247)

/-- Uppercase letters in the same restricted repertoire. -/
def pyIsUpper (c : Char) : Bool :=
  (65 ≤ c.toNat && c.toNat ≤ 90) ||
    (192 ≤ c.toNat && c.toNat ≤ 222 && c.toNat ≠ 215)

/-- Model of Python's `str.lower`, restricted to ASCII and Latin-1:
uppercase codepoints move down by 32, everything else is unchanged. -/
def pyToLower (c : Char) : Char :=
  if pyIsUpper c then Char.ofNat (c.toNat + 32) else c

/-- The characters removed from both ends by `.strip('-_')`. -/
def isStripChar (c : Char) : Bool := c = '-' || c = '_'

/-- `str.strip('-_')` on a character list: drop strip characters from the
front and from the back. -/
def stripDashUnderscore (l : List Char) : List Char :=
  ((l.dropWhile isStripChar).reverse.dropWhile isStripChar).reverse

/-- `sanitize_filename_segment` (`getLabel.py` lines 130–142): keep only
alphanumeric characters, hyphen and underscore, strip hyphen/underscore
from both ends, lowercase the result; an empty result becomes the
placeholder "unbekannt". -/
def sanitize_filename_segment (value : String) : String :=
  let cleaned := stripDashUnderscore
    (value.data.filter fun c => pyIsAlnum c || c = '-' || c = '_')
  if cleaned.isEmpty then "unbekannt" else String.mk (cleaned.map pyToLower)

theorem char_toNat_ofNat_valid (n : ℕ) (h : n.isValidChar) :
    (Char.ofNat n).toNat = n := by
  rw [Char.ofNat, dif_pos h]
  rfl

theorem pyIsUpper_pyToLower (c : Char) : pyIsUpper (pyToLower c) = false := by
  unfold pyToLower
  by_cases h : pyIsUpper c = true
  · rw [if_pos h]
    unfold pyIsUpper at h ⊢
    simp only [Bool.or_eq_true, Bool.and_eq_true, decide_eq_true_eq] at h
    have hv : (Char.ofNat (c.toNat + 32)).toNat = c.toNat + 32 :=
      char_toNat_ofNat_valid _ (Or.inl (by omega))
    simp only [hv, Bool.or_eq_false_iff, Bool.and_eq_false_iff]
    constructor <;> simp only [decide_eq_false_iff_not] <;> omega
  · rw [if_neg h]
    exact Bool.eq_false_iff.mpr h

theorem pyIsAlnum_pyToLower (c : Char) (h : pyIsAlnum c = true) :
    pyIsAlnum (pyToLower c) = true := by
  unfold pyToLower
  by_cases hu : pyIsUpper c = true
  · rw [if_pos hu]
    unfold pyIsUpper at hu
    unfold pyIsAlnum at h ⊢
    simp only [Bool.or_eq_true, Bool.and_eq_true, decide_eq_true_eq] at h hu
    have hv : (Char.ofNat (c.toNat + 32)).toNat = c.toNat + 32 :=
      char_toNat_ofNat_valid _ (Or.inl (by omega))
    simp only [hv, Bool.or_eq_true, Bool.and_eq_true, decide_eq_true_eq]
    omega
  · rw [if_neg hu]
    exact h

theorem pyToLower_of_strip (c : Char) (h : isStripChar c = true) :
    pyToLower c = c := by
  unfold isStripChar at h
  simp only [Bool.or_eq_true, decide_eq_true_eq] at h
  rcases h with h | h <;> subst h <;> decide

/-- Every character of a sanitized segment comes from the filtered list or
from the placeholder. -/
theorem sanitize_chars (value : String) (c : Char)
    (hc : c ∈ (sanitize_filename_segment value).data) :
    (pyIsAlnum c || c = '-' || c = '_') = true ∧ pyIsUpper c = false := by
  unfold sanitize_filename_segment at hc
  by_cases he : (stripDashUnderscore
      (value.data.filter fun c => pyIsAlnum c || c = '-' || c = '_')).isEmpty
  · rw [if_pos he] at hc
    have hall : ∀ d ∈ ("unbekannt" : String).data,
        ((pyIsAlnum d || d = '-' || d = '_') = true ∧ pyIsUpper d = false) := by
      decide
    exact hall c hc
  · rw [if_neg he] at hc
    obtain ⟨c0, hc0, rfl⟩ := List.mem_map.mp hc
    have hmem : c0 ∈ value.data.filter
        fun c => pyIsAlnum c || c = '-' || c = '_' := by
      unfold stripDashUnderscore at hc0
      rw [List.mem_reverse] at hc0
      have h1 := List.Sublist.mem hc0 (List.dropWhile_sublist isStripChar)
      rw [List.mem_reverse] at h1
      exact List.Sublist.mem h1 (List.dropWhile_sublist isStripChar)
    have hpred := List.of_mem_filter hmem
    refine ⟨?_, pyIsUpper_pyToLower c0⟩
    simp only [Bool.or_eq_true, decide_eq_true_eq] at hpred ⊢
    rcases hpred with (ha | hd) | hu
    · exact Or.inl (Or.inl (pyIsAlnum_pyToLower c0 ha))
    · subst hd
      rw [pyToLower_of_strip _ (by decide)]
      exact Or.inl (Or.inr rfl)
    · subst hu
      rw [pyToLower_of_strip _ (by decide)]
      exact Or.inr rfl


/-- JSON values as Python's `json` module returns them: `None`, booleans,
numbers, strings, lists and dicts (a dict's iteration order is its
insertion order, modelled by the field list's order; keys are unique in a
Python dict, and lookup takes the first matching key). -/
inductive Json where
  | null
  | boolean (b : Bool)
  | num (q : ℚ)
  | str (s : String)
  | arr (items : List Json)
  | obj (fields : List (String × Json))

/-- Python truthiness of a JSON value (`if payload.get('download_url'):`):
`None`, `False`, `0`, `""`, `[]`, `{}` are falsy. -/
def Json.truthy : Json → Bool
  | .null => false
  | .boolean b => b
  | .num q => decide (q ≠ 0)
  | .str s => decide (s ≠ "")
  | .arr items => !items.isEmpty
  | .obj fields => !fields.isEmpty

/-- `payload.get(key)`: the value under the first matching key. -/
def lookupField : List (String × Json) → String → Option Json
  | [], _ => none
  | (k, v) :: rest, key => if k = key then some v else lookupField rest key

mutual
/-- `find_download_url` (`getLabel.py` lines 102–127): at a dict, return
the value under `download_url` when it is truthy, otherwise recurse into
the values in iteration order; at a list, recurse into the elements in
order; scalars yield nothing. -/
def find_download_url : Json → Option Json
  | .obj fields =>
    match lookupField fields "download_url" with
    | some v => if v.truthy then some v else findInFields fields
    | none => findInFields fields
  | .arr items => findInItems items
  | _ => none

/-- The `for value in payload.values()` loop of `find_download_url`. -/
def findInFields : List (String × Json) → Option Json
  | [] => none
  | (_, v) :: rest =>
    match find_download_url v with
    | some r => some r
    | none => findInFields rest

/-- The `for item in payload` loop of `find_download_url`. -/
def findInItems : List Json → Option Json
  | [] => none
  | v :: rest =>
    match find_download_url v with
    | some r => some r
    | none => findInItems rest
end

mutual
/-- The spec's search order, as data: every value sitting under a
`download_url` key, enumerated depth-first — at a dict the node's own
`download_url` entry comes before the occurrences inside its values in
iteration order, at a list the elements contribute in index order. -/
def occurrences : Json → List Json
  | .obj fields =>
    (match lookupField fields "download_url" with
     | some v => [v]
     | none => []) ++ occInFields fields
  | .arr items => occInItems items
  | _ => []

/-- Occurrences inside a dict's values, in iteration order. -/
def occInFields : List (String × Json) → List Json
  | [] => []
  | (_, v) :: rest => occurrences v ++ occInFields rest

/-- Occurrences inside a list's elements, in index order. -/
def occInItems : List Json → List Json
  | [] => []
  | v :: rest => occurrences v ++ occInItems rest
end

theorem find?_append_first {α} (p : α → Bool) (l1 l2 : List α) :
    (l1 ++ l2).find? p =
      match l1.find? p with
      | some r => some r
      | none => l2.find? p := by
  induction l1 with
  | nil => simp
  | cons a l ih =>
    by_cases h : p a
    · simp [List.find?_cons_of_pos, h]
    · simp only [List.cons_append, List.find?_cons_of_neg _ h, ih]

theorem json_sizeOf_pos (j : Json) : 0 < sizeOf j := by
  cases j <;> simp

theorem list_sizeOf_pos {α} [SizeOf α] (l : List α) : 0 < sizeOf l := by
  cases l <;> simp

theorem findDfs_aux (n : ℕ) :
    (∀ j : Json, sizeOf j ≤ n →
      find_download_url j = (occurrences j).find? Json.truthy) ∧
    (∀ fields : List (String × Json), sizeOf fields ≤ n →
      findInFields fields = (occInFields fields).find? Json.truthy) ∧
    (∀ items : List Json, sizeOf items ≤ n →
      findInItems items = (occInItems items).find? Json.truthy) := by
  induction n with
  | zero =>
    refine ⟨fun j hj => absurd hj ?_, fun l hl => absurd hl ?_,
      fun l hl => absurd hl ?_⟩ <;> simp only [not_le]
    · exact json_sizeOf_pos j
    · exact list_sizeOf_pos l
    · exact list_sizeOf_pos l
  | succ n ih =>
    obtain ⟨ihj, ihf, ihi⟩ := ih
    refine ⟨?_, ?_, ?_⟩
    · intro j hj
      cases j with
      | obj fields =>
        have hs : sizeOf fields ≤ n := by simp at hj; omega
        simp only [find_download_url, occurrences]
        cases hlk : lookupField fields "download_url" with
        | none => simpa only [hlk, List.nil_append] using ihf fields hs
        | some v =>
          simp only [hlk]
          by_cases ht : v.truthy
          · rw [if_pos ht, List.singleton_append,
              List.find?_cons_of_pos _ ht]
          · rw [if_neg ht, List.singleton_append,
              List.find?_cons_of_neg _ ht]
            exact ihf fields hs
      | arr items =>
        have hs : sizeOf items ≤ n := by simp at hj; omega
        simpa only [find_download_url, occurrences] using ihi items hs
      | null => rfl
      | boolean b => rfl
      | num q => rfl
      | str s => rfl
    · intro l hl
      cases l with
      | nil => rfl
      | cons p rest =>
        obtain ⟨k, v⟩ := p
        have hv : sizeOf v ≤ n := by simp at hl; omega
        have hr : sizeOf rest ≤ n := by simp at hl; omega
        simp only [findInFields, occInFields, find?_append_first,
          ihj v hv]
        cases hfv : List.find? Json.truthy (occurrences v) with
        | some r => rfl
        | none => exact ihf rest hr
    · intro l hl
      cases l with
      | nil => rfl
      | cons v rest =>
        have hv : sizeOf v ≤ n := by simp at hl; omega
        have hr : sizeOf rest ≤ n := by simp at hl; omega
        simp only [findInItems, occInItems, find?_append_first,
          ihj v hv]
        cases hfv : List.find? Json.truthy (occurrences v) with
        | some r => rfl
        | none => exact ihi rest hr

/-- C3: `find_download_url` performs exactly the claimed depth-first
search — its result is the first truthy value in the depth-first
enumeration of values under `download_url` keys (own key before children,
sequence elements in index order), and nothing when no such key exists or
every occurrence is falsy. -/
theorem find_download_url_dfs_spec (j : Json) :
    find_download_url j = (occurrences j).find? Json.truthy :=
  (findDfs_aux (sizeOf j)).1 j (le_refl _)

/-- A mixed structure whose `download_url` sits at depth 4, with a deeper
second occurrence that must be ignored. -/
def jsonDeep : Json :=
  .obj [("meta", .str "m"),
        ("data", .arr [
          .obj [("inner",
            .obj [("download_url", .str "https://first/label.pdf"),
                  ("more",
                    .obj [("download_url",
                           .str "https://second/label.pdf")])])]])]

/-- A structure with no `download_url` key at any depth. -/
def jsonAbsent : Json :=
  .arr [.str "x", .obj [("b", .boolean true)]]

/-- A structure whose only `download_url` occurrence is an empty
string. -/
def jsonEmptyVal : Json :=
  .obj [("a", .obj [("download_url", .str "")])]

/-- Witness for C3: on the depth-4 example the search returns the
shallower URL and agrees with the depth-first enumeration; the key-free
and empty-valued examples yield nothing. -/
theorem find_download_url_dfs_spec_witness :
    find_download_url jsonDeep = some (Json.str "https://first/label.pdf") ∧
    (occurrences jsonDeep).find? Json.truthy =
      some (Json.str "https://first/label.pdf") ∧
    find_download_url jsonAbsent = none ∧
    find_download_url jsonEmptyVal = none := by
  refine ⟨rfl, ?_, rfl, rfl⟩
  rw [← find_download_url_dfs_spec jsonDeep]
  rfl


/-- Word characters of the regex `\\b` boundary (`\\w`): alphanumeric (in
the restricted Unicode sense of `pyIsAlnum`) or underscore. -/
def isWordChar (c : Char) : Bool := pyIsAlnum c || c = '_'

/-- A `\\b` boundary next to a digit holds when the neighbouring character
is absent or not a word character. -/
def boundaryOk : Option Char → Bool
  | none => true
  | some c => !isWordChar c

/-- Attempt of the regex `\\b\\d{12}\\b` at one fixed position: the next
twelve characters are digits, and both neighbours are boundaries. -/
def match12 (prev : Option Char) (l : List Char) : Option String :=
  if (l.take 12).length = 12 && (l.take 12).all Char.isDigit &&
      boundaryOk prev && boundaryOk (l.drop 12).head? then
    some (String.mk (l.take 12))
  else none

/-- The left-to-right scan of `re.search`: try each position in turn and
return the first match. -/
def searchGo : Option Char → List Char → Option String
  | prev, [] => match12 prev []
  | prev, c :: rest =>
    match match12 prev (c :: rest) with
    | some t => some t
    | none => searchGo (some c) rest

/-- `re.search(r'\\b\\d{12}\\b', text)` followed by `match.group(0)`. -/
def searchTwelve (s : String) : Option String := searchGo none s.data

/-- Lines 519–533 of `getLabel.py`: only a stored PDF is examined; the
pages' texts (an extraction returning `None` counting as the empty
string) are concatenated with no separator, and the first twelve-digit
run bounded by word boundaries is returned.  The Python condition
`suffix.lower() == '.pdf' or target_path.suffix.lower() == '.pdf'`
collapses to the single test on the download suffix because the filename
base contains no dot, making both disjuncts equal. -/
def extract_tracking (suffix : String) (pages : List (Option String)) :
    Option String :=
  if String.mk (suffix.data.map pyToLower) = ".pdf" then
    searchTwelve (String.join (pages.map fun p => p.getD ""))
  else none

/-- The character before position `i`, if any. -/
def prevCharAt (cs : List Char) (i : ℕ) : Option Char :=
  if i = 0 then none else (cs.drop (i - 1)).head?

/-- Index-based statement of a `\\b\\d{12}\\b` match at position `i`. -/
def specMatchesAt (cs : List Char) (i : ℕ) : Bool :=
  ((cs.drop i).take 12).length = 12 &&
    ((cs.drop i).take 12).all Char.isDigit &&
    boundaryOk (prevCharAt cs i) &&
    boundaryOk (cs.drop (i + 12)).head?

/-- The spec's description of the search: the leftmost position carrying
a boundary-delimited twelve-digit run, and the run found there. -/
def specSearchTwelve (s : String) : Option String :=
  ((List.range (s.data.length + 1)).find? (specMatchesAt s.data)).map
    fun i => String.mk ((s.data.drop i).take 12)

theorem match12_eq_specMatchesAt (cs : List Char) (i : ℕ) :
    match12 (prevCharAt cs i) (cs.drop i) =
      if specMatchesAt cs i then
        some (String.mk ((cs.drop i).take 12))
      else none := by
  unfold match12 specMatchesAt
  rw [List.drop_drop 12 i cs]

theorem searchGo_cons (prev : Option Char) (c : Char) (rest : List Char) :
    searchGo prev (c :: rest) =
      match match12 prev (c :: rest) with
      | some t => some t
      | none => searchGo (some c) rest := rfl

theorem searchGo_spec (cs : List Char) (m : ℕ) :
    ∀ k, k ≤ cs.length → m = cs.length - k →
      searchGo (prevCharAt cs k) (cs.drop k) =
        ((List.range' k (cs.length + 1 - k)).find? (specMatchesAt cs)).map
          fun i => String.mk ((cs.drop i).take 12) := by
  induction m with
  | zero =>
    intro k hk hm
    have hkeq : k = cs.length := by omega
    subst hkeq
    have hnil : cs.drop cs.length = [] := List.drop_length cs
    have hone : cs.length + 1 - cs.length = 1 := by omega
    have hsp : specMatchesAt cs cs.length = false := by
      unfold specMatchesAt
      rw [hnil]
      rfl
    rw [hnil, hone, List.range'_one]
    show match12 (prevCharAt cs cs.length) [] = _
    rw [List.find?_cons_of_neg _ (by rw [hsp]; exact Bool.false_ne_true),
      List.find?_nil]
    unfold match12
    rfl
  | succ m ihm =>
    intro k hk hm
    have hk2 : k < cs.length := by omega
    have hdrop : cs.drop k = cs[k] :: cs.drop (k + 1) :=
      List.drop_eq_getElem_cons hk2
    have hrange : cs.length + 1 - k = (cs.length - k) + 1 := by omega
    rw [hrange, List.range'_succ k (cs.length - k) 1]
    have hm12 := match12_eq_specMatchesAt cs k
    rw [hdrop, searchGo_cons, ← hdrop]
    cases hsp : specMatchesAt cs k with
    | true =>
      rw [hsp, if_pos rfl] at hm12
      rw [hm12, List.find?_cons_of_pos _ hsp]
      rfl
    | false =>
      rw [hsp, if_neg Bool.false_ne_true] at hm12
      rw [hm12, List.find?_cons_of_neg _ (by rw [hsp]; exact Bool.false_ne_true)]
      have hprev : prevCharAt cs (k + 1) = some cs[k] := by
        unfold prevCharAt
        rw [if_neg (Nat.succ_ne_zero k), Nat.add_sub_cancel, hdrop]
        rfl
      have hrec := ihm (k + 1) (by omega) (by omega)
      rw [hprev] at hrec
      have hlen : cs.length + 1 - (k + 1) = cs.length - k := by omega
      rw [hlen] at hrec
      exact hrec

/-- C6 helper: the scanner equals the leftmost-position description. -/
theorem searchTwelve_eq_spec (s : String) :
    searchTwelve s = specSearchTwelve s := by
  unfold searchTwelve specSearchTwelve
  have h0 : prevCharAt s.data 0 = none := rfl
  have hd : s.data.drop 0 = s.data := rfl
  have := searchGo_spec s.data (s.data.length - 0) 0 (by omega) rfl
  rw [h0, hd] at this
  rw [this, List.range_eq_range' (s.data.length + 1)]
  have : s.data.length + 1 - 0 = s.data.length + 1 := by omega
  rw [this]


/-- Python truthiness of a string. -/
def truthyStr (s : String) : Bool := decide (s ≠ "")

/-- Python truthiness of an optional string (`None` and `""` falsy). -/
def truthyOptStr : Option String → Bool
  | none => false
  | some s => decide (s ≠ "")

/-- Step 3 of the main flow: the first non-blank stripped BELEGNR, with
the command-line order number as fallback. -/
def resolveOrderNumberDb (rows : List OrderRow) (fallback : String) :
    String :=
  ((rows.filterMap fun r => r.belegnr.bind fun s =>
      if s.trim = "" then none else some s.trim).head?).getD fallback

/-- Step 4 of the main flow: the first non-NULL FSROWID, stripped (a
value that strips to blank is kept and later fails the truthiness
test). -/
def resolveFsrowid (rows : List OrderRow) : Option String :=
  (rows.findSome? fun r => r.fsrowid).map String.trim

/-- A rendering of a JSON value for log text, standing in for Python's
`str()`.  Only the exact wording of one log line depends on it and no
theorem inspects that line. -/
def Json.display : Json → String
  | .null => "None"
  | .boolean b => if b then "True" else "False"
  | .num _ => "<zahl>"
  | .str s => s
  | .arr _ => "<liste>"
  | .obj _ => "<objekt>"

/-- A database write requested by the run. -/
inductive WriteEvent where
  | tracking (fsrowid value : String)
  | carrier (fsrowid : String)
  | memo (orderNumber memoText : String)
  deriving Repr, DecidableEq

/-- Tracking and carrier writes, as opposed to the memo write. -/
def WriteEvent.isShipmentWrite : WriteEvent → Bool
  | .tracking _ _ => true
  | .carrier _ => true
  | .memo _ _ => false

/-- Whether the run completed or aborted: raising `SystemExit(1)` is the
script's failure signal (the top-level handler swallows it so the
process still exits quietly, but the pipeline is abandoned). -/
inductive RunOutcome where
  | success
  | failed
  deriving Repr, DecidableEq

/-- The run's observable behaviour before the `finally` block. -/
structure PreResult where
  log : List String
  writes : List WriteEvent
  downloadAttempts : ℕ
  orderNumberDb : Option String
  outcome : RunOutcome
  deriving Repr, DecidableEq

/-- The run's observable behaviour including the final memo phase. -/
structure RunState where
  log : List String
  writes : List WriteEvent
  downloadAttempts : ℕ
  orderNumberDb : Option String
  outcome : RunOutcome
  memoAttempts : ℕ
  deriving Repr, DecidableEq

/-- The external world of one run: command-line arguments, the database
rows, the label API's behaviour, the download, the PDF text and the
outcome of each database write.  Each `Option String` failure slot is
`some message` when that external call raises. -/
structure Env where
  orderNumberInput : String
  usernameInput : String
  labelPath : String
  nowTimestamp : String
  fetch : Except String (List OrderRow)
  apiFail : Option String
  apiRaw : String
  apiJson : Json
  downloadFail : Option String
  suffix : String
  pdfPages : Except String (List (Option String))
  trackingWriteFail : Option String
  carrierWriteFail : Option String
  memoWriteFail : Option String

/-- The `try` body of the main flow (`getLabel.py` lines 399–547),
written as one pure function of the environment; every `SystemExit(1)`
becomes an early return with outcome `failed`. -/
def coreRun (orderNumberInput usernameInput labelPath nowTimestamp :
      String)
    (fetch : Except String (List OrderRow)) (apiFail : Option String)
    (apiRaw : String) (apiJson : Json) (downloadFail : Option String)
    (suffix : String) (pdfPages : Except String (List (Option String)))
    (trackingWriteFail carrierWriteFail : Option String) : PreResult :=
  match fetch with
  | .error e =>
    { log := ["SQL-Fehler beim Abrufen der Auftragsdaten: " ++ e],
      writes := [], downloadAttempts := 0, orderNumberDb := none,
      outcome := .failed }
  | .ok order_rows =>
    if order_rows.isEmpty then
      { log := ["Keine Daten fuer Auftragsnummer " ++ orderNumberInput ++
          " gefunden."],
        writes := [], downloadAttempts := 0, orderNumberDb := none,
        outcome := .failed }
    else
      match aggregate_order_values order_rows with
      | .error e =>
        { log := [e], writes := [], downloadAttempts := 0,
          orderNumberDb := none, outcome := .failed }
      | .ok aggregated =>
        let order_number_db :=
          resolveOrderNumberDb order_rows orderNumberInput
        let fsrowid := resolveFsrowid order_rows
        let log0 : List String :=
          if truthyOptStr fsrowid then []
          else ["Warnung: Keine FSROWID in den Auftragsdaten gefunden."]
        match apiFail with
        | some e =>
          { log := log0 ++
              ["Fehler bei der Anfrage oder beim Parsen der Antwort: " ++
                e, apiRaw],
            writes := [], downloadAttempts := 0,
            orderNumberDb := some order_number_db, outcome := .failed }
        | none =>
          match find_download_url apiJson with
          | none =>
            { log := log0 ++
                ["Keine Download-URL in der Antwort gefunden:", apiRaw],
              writes := [], downloadAttempts := 0,
              orderNumberDb := some order_number_db, outcome := .failed }
          | some durl =>
            let log1 := log0 ++ ["Download-URL: " ++ durl.display]
            match downloadFail with
            | some e =>
              { log := log1 ++ ["Download fehlgeschlagen: " ++ e,
                  "Verwendete Request-Daten:", "<request-json>"],
                writes := [], downloadAttempts := 1,
                orderNumberDb := some order_number_db,
                outcome := .failed }
            | none =>
              let filename_base := nowTimestamp ++ "-" ++
                sanitize_filename_segment usernameInput ++ "-GLS-" ++
                sanitize_filename_segment
                  (aggregated.ids_order_units.headD orderNumberInput)
              let log2 := log1 ++ ["Dokument gespeichert als " ++
                labelPath ++ "/" ++ filename_base ++ suffix]
              if String.mk (suffix.data.map pyToLower) = ".pdf" then
                match pdfPages with
                | .error e =>
                  { log := log2 ++ ["Fehler beim Auslesen der PDF: " ++ e],
                    writes := [], downloadAttempts := 1,
                    orderNumberDb := some order_number_db,
                    outcome := .failed }
                | .ok pages =>
                  match searchTwelve
                      (String.join (pages.map fun p => p.getD "")) with
                  | none =>
                    { log := log2 ++
                        ["Keine 12-stellige Nummer in der PDF gefunden."],
                      writes := [], downloadAttempts := 1,
                      orderNumberDb := some order_number_db,
                      outcome := .failed }
                  | some tracking_number =>
                    let log3 := log2 ++
                      ["Gefundene 12-stellige Nummer: " ++ tracking_number]
                    if truthyOptStr fsrowid then
                      let fs := fsrowid.getD ""
                      match trackingWriteFail with
                      | some e =>
                        { log := log3 ++
                            ["Fehler beim Schreiben in die Datenbank: " ++
                              e],
                          writes := [], downloadAttempts := 1,
                          orderNumberDb := some order_number_db,
                          outcome := .failed }
                      | none =>
                        match carrierWriteFail with
                        | some e =>
                          { log := log3 ++ ["Tracking-Nummer " ++
                              tracking_number ++
                              " erfolgreich in die Datenbank geschrieben.",
                              "Fehler beim Schreiben in die Datenbank: " ++
                                e],
                            writes := [.tracking fs tracking_number],
                            downloadAttempts := 1,
                            orderNumberDb := some order_number_db,
                            outcome := .failed }
                        | none =>
                          { log := log3 ++ ["Tracking-Nummer " ++
                              tracking_number ++
                              " erfolgreich in die Datenbank geschrieben.",
                              "Carrier-Wert (GLS) erfolgreich in die Datenbank geschrieben."],
                            writes := [.tracking fs tracking_number,
                              .carrier fs],
                            downloadAttempts := 1,
                            orderNumberDb := some order_number_db,
                            outcome := .success }
                    else
                      { log := log3 ++
                          ["Warnung: Keine FSROWID verfuegbar, Datenbankeintraege uebersprungen."],
                        writes := [], downloadAttempts := 1,
                        orderNumberDb := some order_number_db,
                        outcome := .failed }
              else
                { log := log2, writes := [], downloadAttempts := 1,
                  orderNumberDb := some order_number_db,
                  outcome := .success }

/-- The `finally` block (`getLabel.py` lines 556–564): attempt the memo
write once when a truthy business identifier was resolved; a failing
memo write only logs and never changes the outcome. -/
def applyFinally (memoWriteFail : Option String) (pre : PreResult) :
    RunState :=
  match pre.orderNumberDb with
  | some onr =>
    if truthyStr onr then
      match memoWriteFail with
      | some e =>
        { log := pre.log ++ ["Fehler beim Aktualisieren des Memos: " ++ e],
          writes := pre.writes,
          downloadAttempts := pre.downloadAttempts,
          orderNumberDb := pre.orderNumberDb, outcome := pre.outcome,
          memoAttempts := 1 }
      | none =>
        { log := pre.log,
          writes := pre.writes ++
            [.memo onr (String.intercalate "\n" pre.log)],
          downloadAttempts := pre.downloadAttempts,
          orderNumberDb := pre.orderNumberDb, outcome := pre.outcome,
          memoAttempts := 1 }
    else
      { log := pre.log, writes := pre.writes,
        downloadAttempts := pre.downloadAttempts,
        orderNumberDb := pre.orderNumberDb, outcome := pre.outcome,
        memoAttempts := 0 }
  | none =>
    { log := pre.log, writes := pre.writes,
      downloadAttempts := pre.downloadAttempts,
      orderNumberDb := pre.orderNumberDb, outcome := pre.outcome,
      memoAttempts := 0 }

/-- One full run: the `try` body followed by the `finally` block. -/
def run (env : Env) : RunState :=
  applyFinally env.memoWriteFail
    (coreRun env.orderNumberInput env.usernameInput env.labelPath
      env.nowTimestamp env.fetch env.apiFail env.apiRaw env.apiJson
      env.downloadFail env.suffix env.pdfPages env.trackingWriteFail
      env.carrierWriteFail)

theorem applyFinally_outcome (m : Option String) (pre : PreResult) :
    (applyFinally m pre).outcome = pre.outcome := by
  unfold applyFinally
  split
  · split
    · cases m <;> rfl
    · rfl
  · rfl

theorem applyFinally_orderNumberDb (m : Option String) (pre : PreResult) :
    (applyFinally m pre).orderNumberDb = pre.orderNumberDb := by
  unfold applyFinally
  split
  · split
    · cases m <;> rfl
    · rfl
  · rfl

theorem applyFinally_downloadAttempts (m : Option String)
    (pre : PreResult) :
    (applyFinally m pre).downloadAttempts = pre.downloadAttempts := by
  unfold applyFinally
  split
  · split
    · cases m <;> rfl
    · rfl
  · rfl

theorem applyFinally_memoAttempts (m : Option String) (pre : PreResult) :
    (applyFinally m pre).memoAttempts =
      if truthyOptStr pre.orderNumberDb then 1 else 0 := by
  unfold applyFinally
  split
  next onr heq =>
    rw [heq]
    have hconv : truthyOptStr (some onr) = truthyStr onr := rfl
    rw [hconv]
    split
    next ht => cases m <;> rfl
    next ht => rfl
  next heq =>
    rw [heq]
    rfl

theorem applyFinally_log_mono (m : Option String) (pre : PreResult)
    (x : String) (hx : x ∈ pre.log) : x ∈ (applyFinally m pre).log := by
  unfold applyFinally
  split
  · split
    · cases m with
      | some e => exact List.mem_append_left _ hx
      | none => exact hx
    · exact hx
  · exact hx

theorem applyFinally_writes_subset (m : Option String) (pre : PreResult)
    (w : WriteEvent) (hw : w ∈ (applyFinally m pre).writes) :
    w ∈ pre.writes ∨ w.isShipmentWrite = false := by
  unfold applyFinally at hw
  split at hw
  · split at hw
    · cases m with
      | some e =>
        exact Or.inl hw
      | none =>
        simp only [List.mem_append, List.mem_singleton] at hw
        rcases hw with hw | hw
        · exact Or.inl hw
        · subst hw
          exact Or.inr rfl
    · exact Or.inl hw
  · exact Or.inl hw

/-- C6: tracking extraction only happens for a stored PDF (anything else
is skipped without error); the pages' texts are concatenated in order
with no separator, and the result is the first run of exactly twelve
digits bounded by word boundaries — equivalently, the leftmost match
position of `specSearchTwelve`; a text containing
"...Ref 123456789012 End..." (even split across pages) yields
"123456789012", and a text without such a run yields nothing. -/
theorem tracking_extraction_spec :
    (∀ suffix pages, String.mk (suffix.data.map pyToLower) ≠ ".pdf" →
      extract_tracking suffix pages = none) ∧
    (∀ pages : List (Option String),
      extract_tracking ".pdf" pages =
        specSearchTwelve (String.join (pages.map fun p => p.getD ""))) ∧
    extract_tracking ".pdf" [some "...Ref 1234567", none,
      some "89012 End..."] = some "123456789012" ∧
    extract_tracking ".pdf" [some "only 1234567890123 and 1234"] = none := by
  refine ⟨?_, ?_, by decide, by decide⟩
  · intro suffix pages h
    unfold extract_tracking
    rw [if_neg h]
  · intro pages
    unfold extract_tracking
    rw [if_pos (by decide)]
    exact searchTwelve_eq_spec _

/-- Witness for C6: a non-PDF suffix skips extraction; a PDF whose pages
concatenate to "...Ref 123456789012 End..." yields the tracking
number. -/
theorem tracking_extraction_spec_witness :
    extract_tracking ".txt" [some "Ref 123456789012"] = none ∧
    extract_tracking ".pdf" [some "...Ref 1234567", none,
      some "89012 End..."] = some "123456789012" :=
  ⟨tracking_extraction_spec.1 ".txt" [some "Ref 123456789012"] (by decide),
   tracking_extraction_spec.2.2.1⟩

/-- 32-bit truncation. -/
def w32 (n : ℕ) : ℕ := n % 4294967296

/-- 32-bit addition. -/
def add32 (a b : ℕ) : ℕ := (a + b) % 4294967296

/-- 32-bit bitwise complement. -/
def not32 (a : ℕ) : ℕ := Nat.xor a 4294967295

/-- Right rotation of a 32-bit word. -/
def rotr32 (n a : ℕ) : ℕ := w32 (a / 2 ^ n + a % 2 ^ n * 2 ^ (32 - n))

/-- Logical right shift of a 32-bit word. -/
def shr32 (n a : ℕ) : ℕ := a / 2 ^ n

/-- SHA-256 choice function. -/
def sha2Ch (x y z : ℕ) : ℕ := Nat.xor (Nat.land x y) (Nat.land (not32 x) z)

/-- SHA-256 majority function. -/
def sha2Maj (x y z : ℕ) : ℕ :=
  Nat.xor (Nat.xor (Nat.land x y) (Nat.land x z)) (Nat.land y z)

/-- SHA-256 Σ₀. -/
def sha2S0 (x : ℕ) : ℕ := Nat.xor (Nat.xor (rotr32 2 x) (rotr32 13 x)) (rotr32 22 x)

/-- SHA-256 Σ₁. -/
def sha2S1 (x : ℕ) : ℕ := Nat.xor (Nat.xor (rotr32 6 x) (rotr32 11 x)) (rotr32 25 x)

/-- SHA-256 σ₀. -/
def sha2s0 (x : ℕ) : ℕ := Nat.xor (Nat.xor (rotr32 7 x) (rotr32 18 x)) (shr32 3 x)

/-- SHA-256 σ₁. -/
def sha2s1 (x : ℕ) : ℕ := Nat.xor (Nat.xor (rotr32 17 x) (rotr32 19 x)) (shr32 10 x)

/-- The SHA-256 round constants. -/
def sha2K : List ℕ :=
  [1116352408, 1899447441, 3049323471, 3921009573,
   961987163, 1508970993, 2453635748, 2870763221,
   3624381080, 310598401, 607225278, 1426881987,
   1925078388, 2162078206, 2614888103, 3248222580,
   3835390401, 4022224774, 264347078, 604807628,
   770255983, 1249150122, 1555081692, 1996064986,
   2554220882, 2821834349, 2952996808, 3210313671,
   3336571891, 3584528711, 113926993, 338241895,
   666307205, 773529912, 1294757372, 1396182291,
   1695183700, 1986661051, 2177026350, 2456956037,
   2730485921, 2820302411, 3259730800, 3345764771,
   3516065817, 3600352804, 4094571909, 275423344,
   430227734, 506948616, 659060556, 883997877,
   958139571, 1322822218, 1537002063, 1747873779,
   1955562222, 2024104815, 2227730452, 2361852424,
   2428436474, 2756734187, 3204031479, 3329325298]

/-- The SHA-256 initial hash value. -/
def sha2H0 : List ℕ :=
  [1779033703, 3144134277, 1013904242, 2773480762,
   1359893119, 2600822924, 528734635, 1541459225]

/-- Big-endian byte decomposition of a value into `n` bytes. -/
def bigEndianBytes (n v : ℕ) : List ℕ :=
  (List.range n).map fun i => v / 2 ^ (8 * (n - 1 - i)) % 256

/-- SHA-256 padding: append 0x80, zero bytes up to 56 mod 64, and the
64-bit big-endian bit length. -/
def padMessage (msg : List ℕ) : List ℕ :=
  msg ++ [0x80] ++ List.replicate ((119 - msg.length % 64) % 64) 0 ++
    bigEndianBytes 8 (msg.length * 8)

/-- The 16 initial 32-bit words of a 64-byte block. -/
def blockWords (block : List ℕ) : List ℕ :=
  (List.range 16).map fun i =>
    block.getD (4 * i) 0 * 16777216 + block.getD (4 * i + 1) 0 * 65536 +
      block.getD (4 * i + 2) 0 * 256 + block.getD (4 * i + 3) 0

/-- Extend the message schedule by `k` more words. -/
def extendSchedule : List ℕ → ℕ → List ℕ
  | w, 0 => w
  | w, k + 1 =>
    extendSchedule
      (w ++ [add32
        (add32 (sha2s1 (w.getD (w.length - 2) 0)) (w.getD (w.length - 7) 0))
        (add32 (sha2s0 (w.getD (w.length - 15) 0))
          (w.getD (w.length - 16) 0))]) k

/-- One SHA-256 compression round on the eight-word state. -/
def compressRound (st : List ℕ) (k w : ℕ) : List ℕ :=
  match st with
  | [a, b, c, d, e, f, g, h] =>
    let t1 := add32 (add32 (add32 h (sha2S1 e)) (add32 (sha2Ch e f g) k)) w
    let t2 := add32 (sha2S0 a) (sha2Maj a b c)
    [add32 t1 t2, a, b, c, add32 d t1, e, f, g]
  | _ => st

/-- Process one 64-byte block. -/
def processBlock (h : List ℕ) (block : List ℕ) : List ℕ :=
  let w := extendSchedule (blockWords block) 48
  let st := (sha2K.zip w).foldl (fun st p => compressRound st p.1 p.2) h
  List.zipWith add32 h st

/-- Split a byte list into 64-byte chunks (fuel-based so that the kernel
can evaluate it). -/
def chunks64Go : ℕ → List ℕ → List (List ℕ)
  | 0, _ => []
  | _, [] => []
  | fuel + 1, l => l.take 64 :: chunks64Go fuel (l.drop 64)

/-- Split a byte list into 64-byte chunks. -/
def chunks64 (l : List ℕ) : List (List ℕ) := chunks64Go l.length l

/-- SHA-256 of a byte sequence, as 32 bytes. -/
def sha256Bytes (msg : List ℕ) : List ℕ :=
  ((chunks64 (padMessage msg)).foldl processBlock sha2H0).flatMap
    (bigEndianBytes 4)

/-- HMAC-SHA256 (RFC 2104) with a 64-byte block size, as implemented by
Python's `hmac.new(key, msg, hashlib.sha256)`. -/
def hmacSha256 (key msg : List ℕ) : List ℕ :=
  let k1 := if 64 < key.length then sha256Bytes key else key
  let k0 := k1 ++ List.replicate (64 - k1.length) 0
  sha256Bytes ((k0.map fun b => Nat.xor b 0x5c) ++
    sha256Bytes ((k0.map fun b => Nat.xor b 0x36) ++ msg))

/-- One lowercase hexadecimal digit. -/
def hexDigit (n : ℕ) : Char :=
  if n < 10 then Char.ofNat (48 + n) else Char.ofNat (87 + n)

/-- Two lowercase hexadecimal digits of a byte. -/
def hexByte (b : ℕ) : List Char := [hexDigit (b / 16 % 16), hexDigit (b % 16)]

/-- Lowercase hexadecimal rendering of a byte sequence
(`hexdigest()`). -/
def hexOfBytes (bs : List ℕ) : String := String.mk (bs.flatMap hexByte)

/-- UTF-8 encoding of one character (Python's `str.encode('utf-8')`). -/
def utf8EncodeChar (c : Char) : List ℕ :=
  let n := c.toNat
  if n < 128 then [n]
  else if n < 2048 then [192 + n / 64, 128 + n % 64]
  else if n < 65536 then
    [224 + n / 4096, 128 + n / 64 % 64, 128 + n % 64]
  else
    [240 + n / 262144, 128 + n / 4096 % 64, 128 + n / 64 % 64, 128 + n % 64]

/-- UTF-8 bytes of a string. -/
def strBytes (s : String) : List ℕ := s.data.flatMap utf8EncodeChar

/-- `sign_request` (`getLabel.py` lines 81–99): HMAC-SHA256 of the
newline-joined message over the UTF-8 encoded secret key, rendered as
lowercase hex. -/
def sign_request (method uri body timestamp secret_key : String) : String :=
  hexOfBytes (hmacSha256 (strBytes secret_key)
    (strBytes (String.intercalate "\n" [method, uri, body, timestamp])))

theorem hexDigit_lower (n : ℕ) (h : n < 16) :
    (hexDigit n).isDigit = true ∨ ('a' ≤ hexDigit n ∧ hexDigit n ≤ 'f') := by
  have : ∀ m, m < 16 →
      ((hexDigit m).isDigit = true ∨ ('a' ≤ hexDigit m ∧ hexDigit m ≤ 'f')) := by
    decide
  exact this n h

set_option maxRecDepth 100000 in
example : hexOfBytes (sha256Bytes (strBytes "abc")) =
    "ba7816bf8f01cfea414140de5dae2223b00361a396177a9cb410ff61f20015ad" := by
  decide

set_option maxRecDepth 100000 in
example : hexOfBytes (hmacSha256 (strBytes "Jefe")
      (strBytes "what do ya want for nothing?")) =
    "5bdcc146bf60754e6a042426089575c75a003f089d2739839dec58b964ec3843" := by
  decide

/-- C2: the signature equals HMAC-SHA256, keyed by the secret key, of the
four fields joined by single newlines with no trailing separator, encoded
as lowercase hexadecimal; the function is deterministic (a pure function
of its arguments, no nonce). -/
theorem sign_request_hmac_spec (method uri body timestamp key : String) :
    sign_request method uri body timestamp key =
      hexOfBytes (hmacSha256 (strBytes key)
        (strBytes (method ++ "\n" ++ uri ++ "\n" ++ body ++ "\n" ++
          timestamp))) ∧
    (∀ c ∈ (sign_request method uri body timestamp key).data,
        c.isDigit = true ∨ ('a' ≤ c ∧ c ≤ 'f')) ∧
    sign_request method uri body timestamp key =
      sign_request method uri body timestamp key := by
  refine ⟨?_, ?_, rfl⟩
  · unfold sign_request
    rw [show String.intercalate "\n" [method, uri, body, timestamp] =
      method ++ "\n" ++ uri ++ "\n" ++ body ++ "\n" ++ timestamp from by
        simp [String.intercalate, String.intercalate.go]]
  · intro c hc
    unfold sign_request hexOfBytes at hc
    obtain ⟨b, _, hcb⟩ := List.mem_flatMap.mp hc
    unfold hexByte at hcb
    have h16a : b / 16 % 16 < 16 := Nat.mod_lt _ (by norm_num)
    have h16b : b % 16 < 16 := Nat.mod_lt _ (by norm_num)
    simp only [List.mem_cons, List.not_mem_nil, or_false] at hcb
    rcases hcb with rfl | rfl
    · exact hexDigit_lower _ h16a
    · exact hexDigit_lower _ h16b

set_option maxRecDepth 100000 in
/-- Witness for C2: the signature of a concrete request, equal to the
canonical-message HMAC and to the digest Python produces. -/
theorem sign_request_hmac_spec_witness :
    sign_request "POST" "https://api.example/x" "{}" "1700000000" "secret" =
      hexOfBytes (hmacSha256 (strBytes "secret")
        (strBytes ("POST" ++ "\n" ++ "https://api.example/x" ++ "\n" ++
          "{}" ++ "\n" ++ "1700000000"))) ∧
    sign_request "POST" "https://api.example/x" "{}" "1700000000" "secret" =
      "7cd18bb9a82c3540cb97139799539a129c702130b5b82450b0dc72c8acc010b1" :=
  ⟨(sign_request_hmac_spec "POST" "https://api.example/x" "{}" "1700000000"
      "secret").1,
   by decide⟩

/-- C7 counterexample: sanitizing "Jürgen Müller!" does not reduce to
nothing usable — Python's `isalnum` counts the umlaut letters as
alphanumeric, so the function returns "jürgenmüller" and not the
placeholder "unbekannt", contrary to the claim. -/
theorem sanitize_umlaut_not_placeholder :
    sanitize_filename_segment "Jürgen Müller!" = "jürgenmüller" ∧
    sanitize_filename_segment "Jürgen Müller!" ≠ "unbekannt" := by
  constructor <;> decide

/-- C7 (amended): filename-segment sanitization yields a string whose
characters are all alphanumeric (in the Unicode sense of Python's
`isalnum`), hyphen or underscore, with no uppercase character; the
result is never the empty segment: when everything is filtered away
(empty input, or a fully non-alphanumeric input such as "!!!") the
placeholder "unbekannt" is returned; "Jürgen Müller!" keeps its letters
and yields "jürgenmüller", not the placeholder. -/
theorem sanitize_filename_segment_spec (value : String) :
    (∀ c ∈ (sanitize_filename_segment value).data,
        (pyIsAlnum c || c = '-' || c = '_') = true ∧ pyIsUpper c = false) ∧
    sanitize_filename_segment value ≠ "" ∧
    sanitize_filename_segment "" = "unbekannt" ∧
    sanitize_filename_segment "!!!" = "unbekannt" ∧
    sanitize_filename_segment "Jürgen Müller!" = "jürgenmüller" := by
  refine ⟨fun c hc => sanitize_chars value c hc, ?_, by decide, by decide,
    by decide⟩
  unfold sanitize_filename_segment
  by_cases he : (stripDashUnderscore
      (value.data.filter fun c => pyIsAlnum c || c = '-' || c = '_')).isEmpty
  · rw [if_pos he]
    decide
  · rw [if_neg he]
    intro hEq
    apply he
    have hdata : (stripDashUnderscore
        (value.data.filter fun c =>
          pyIsAlnum c || c = '-' || c = '_')).map pyToLower = [] := by
      simpa using congrArg String.data hEq
    rw [List.isEmpty_iff]
    exact List.map_eq_nil_iff.mp hdata

/-- Witness for C7 (amended): a concrete input with an uppercase letter,
a hyphen and a digit sanitizes to a non-empty lowercase segment. -/
theorem sanitize_filename_segment_spec_witness :
    sanitize_filename_segment "Ab-1" ≠ "" ∧
    sanitize_filename_segment "Ab-1" = "ab-1" :=
  ⟨(sanitize_filename_segment_spec "Ab-1").2.1, by decide⟩


theorem applyFinally_log_none (pre : PreResult) :
    (applyFinally none pre).log = pre.log := by
  unfold applyFinally
  split
  · split
    · rfl
    · rfl
  · rfl

theorem applyFinally_memo_mem (pre : PreResult) (onr : String)
    (h1 : pre.orderNumberDb = some onr) (h2 : truthyStr onr = true) :
    WriteEvent.memo onr (String.intercalate "\n" pre.log) ∈
      (applyFinally none pre).writes := by
  unfold applyFinally
  split
  next onr2 heq =>
    rw [h1] at heq
    injection heq with heq2
    subst heq2
    rw [if_pos h2]
    exact List.mem_append_right _ (List.mem_singleton.mpr rfl)
  next heq =>
    rw [h1] at heq
    cases heq

/-- C8: the final memo write is attempted exactly once in the cleanup
phase iff a truthy business identifier was resolved before any failure,
and skipped entirely otherwise; a successful attempt writes the full
accumulated log text against that identifier; and a failure of the memo
write itself never changes the run's already-determined outcome. -/
theorem memo_finally_spec (env : Env) (e : String) :
    ((run env).memoAttempts =
      if truthyOptStr (run env).orderNumberDb then 1 else 0) ∧
    ((run {env with memoWriteFail := some e}).outcome =
      (run env).outcome) ∧
    (∀ onr, (run env).orderNumberDb = some onr → truthyStr onr = true →
      env.memoWriteFail = none →
      WriteEvent.memo onr (String.intercalate "\n" (run env).log) ∈
        (run env).writes) := by
  refine ⟨?_, ?_, ?_⟩
  · unfold run
    rw [applyFinally_memoAttempts, applyFinally_orderNumberDb]
  · unfold run
    dsimp only
    rw [applyFinally_outcome, applyFinally_outcome]
  · intro onr h1 h2 h3
    unfold run at h1 ⊢
    rw [h3]
    rw [applyFinally_orderNumberDb] at h1
    rw [applyFinally_log_none]
    exact applyFinally_memo_mem _ onr h1 h2

/-- C9: when the signed label-creation call fails (non-2xx status or
unparsable JSON), the run aborts immediately: outcome failed, no document
download is attempted, no tracking or carrier write happens, and both the
exception text and the raw response text land in the execution log. -/
theorem api_failure_fail_fast (env : Env) (rows : List OrderRow)
    (agg : AggregatedShipment) (e : String)
    (hfetch : env.fetch = Except.ok rows)
    (hne : rows.isEmpty = false)
    (hagg : aggregate_order_values rows = Except.ok agg)
    (hapi : env.apiFail = some e) :
    (run env).outcome = RunOutcome.failed ∧
    env.apiRaw ∈ (run env).log ∧
    ("Fehler bei der Anfrage oder beim Parsen der Antwort: " ++ e) ∈
      (run env).log ∧
    (run env).downloadAttempts = 0 ∧
    (∀ w ∈ (run env).writes, w.isShipmentWrite = false) := by
  have hpre : coreRun env.orderNumberInput env.usernameInput env.labelPath
      env.nowTimestamp env.fetch env.apiFail env.apiRaw env.apiJson
      env.downloadFail env.suffix env.pdfPages env.trackingWriteFail
      env.carrierWriteFail =
      { log := (if truthyOptStr (resolveFsrowid rows) then []
          else ["Warnung: Keine FSROWID in den Auftragsdaten gefunden."]) ++
          ["Fehler bei der Anfrage oder beim Parsen der Antwort: " ++ e,
            env.apiRaw],
        writes := [], downloadAttempts := 0,
        orderNumberDb :=
          some (resolveOrderNumberDb rows env.orderNumberInput),
        outcome := .failed } := by
    rw [hfetch, hapi]
    unfold coreRun
    simp only [hne, Bool.false_eq_true, if_false, hagg]
  unfold run
  rw [hpre]
  refine ⟨applyFinally_outcome _ _, ?_, ?_,
    applyFinally_downloadAttempts _ _, ?_⟩
  · exact applyFinally_log_mono _ _ _ (by simp)
  · exact applyFinally_log_mono _ _ _ (by simp)
  · intro w hw
    rcases applyFinally_writes_subset _ _ _ hw with h | h
    · exact absurd h (List.not_mem_nil w)
    · exact h

/-- C10: when a tracking number is extracted but no fetched row carries a
non-blank FSROWID, the run writes neither the tracking number nor the
carrier value and aborts as a failed run, logging the warning. -/
theorem missing_fsrowid_aborts (env : Env) (rows : List OrderRow)
    (agg : AggregatedShipment) (durl : Json)
    (pages : List (Option String)) (t : String)
    (hfetch : env.fetch = Except.ok rows)
    (hne : rows.isEmpty = false)
    (hagg : aggregate_order_values rows = Except.ok agg)
    (hapi : env.apiFail = none)
    (hurl : find_download_url env.apiJson = some durl)
    (hdl : env.downloadFail = none)
    (hsfx : String.mk (env.suffix.data.map pyToLower) = ".pdf")
    (hpages : env.pdfPages = Except.ok pages)
    (hmatch : searchTwelve (String.join (pages.map fun p => p.getD "")) =
      some t)
    (hblank : ∀ r ∈ rows, ((r.fsrowid.map String.trim).getD "") = "") :
    (run env).outcome = RunOutcome.failed ∧
    ("Warnung: Keine FSROWID verfuegbar, Datenbankeintraege uebersprungen."
      ∈ (run env).log) ∧
    (∀ w ∈ (run env).writes, w.isShipmentWrite = false) := by
  have hfs : truthyOptStr (resolveFsrowid rows) = false := by
    unfold resolveFsrowid
    cases hfind : rows.findSome? (fun r => r.fsrowid) with
    | none => rfl
    | some s =>
      obtain ⟨r, hr, hrs⟩ := List.exists_of_findSome?_eq_some hfind
      have hb := hblank r hr
      rw [hrs] at hb
      simp only [Option.map_some', Option.getD_some] at hb
      simp [truthyOptStr, hb]
  have hpre : coreRun env.orderNumberInput env.usernameInput env.labelPath
      env.nowTimestamp env.fetch env.apiFail env.apiRaw env.apiJson
      env.downloadFail env.suffix env.pdfPages env.trackingWriteFail
      env.carrierWriteFail =
      { log := (["Warnung: Keine FSROWID in den Auftragsdaten gefunden."] ++
          ["Download-URL: " ++ durl.display]) ++
          ["Dokument gespeichert als " ++ env.labelPath ++ "/" ++
            (env.nowTimestamp ++ "-" ++
              sanitize_filename_segment env.usernameInput ++ "-GLS-" ++
              sanitize_filename_segment
                (agg.ids_order_units.headD env.orderNumberInput)) ++
            env.suffix] ++
          ["Gefundene 12-stellige Nummer: " ++ t] ++
          ["Warnung: Keine FSROWID verfuegbar, Datenbankeintraege uebersprungen."],
        writes := [], downloadAttempts := 1,
        orderNumberDb :=
          some (resolveOrderNumberDb rows env.orderNumberInput),
        outcome := .failed } := by
    rw [hfetch, hapi, hdl, hpages]
    unfold coreRun
    simp only [hne, Bool.false_eq_true, if_false, hagg, hurl, hfs, hsfx,
      if_true, hmatch, List.nil_append]
  unfold run
  rw [hpre]
  refine ⟨applyFinally_outcome _ _, ?_, ?_⟩
  · exact applyFinally_log_mono _ _ _ (by simp)
  · intro w hw
    rcases applyFinally_writes_subset _ _ _ hw with h | h
    · exact absurd h (List.not_mem_nil w)
    · exact h


/-- A fully successful environment: one row with code "A1", BELEGNR "B1"
and FSROWID "F1"; the API answers with a PDF URL; the PDF text carries a
twelve-digit run; every write succeeds. -/
def envOk : Env :=
  { orderNumberInput := "100", usernameInput := "Tester",
    labelPath := "labels", nowTimestamp := "01012024-120000",
    fetch := .ok [⟨some 1, some 1, some 1, some 1, some "A1", some "B1",
      some "F1"⟩],
    apiFail := none, apiRaw := "",
    apiJson := .obj [("download_url", .str "https://dl/label.pdf")],
    downloadFail := none, suffix := ".pdf",
    pdfPages := .ok [some "Ref 123456789012 End"],
    trackingWriteFail := none, carrierWriteFail := none,
    memoWriteFail := none }

/-- Like `envOk` but the label API call fails with raw text "rohtext". -/
def env9 : Env :=
  { envOk with apiFail := some "boom", apiRaw := "rohtext" }

/-- Like `envOk` but the single row has no FSROWID. -/
def env10 : Env :=
  { envOk with fetch := .ok [⟨some 1, some 1, some 1, some 1, some "A1",
      some "B1", none⟩] }

/-- Witness for C8: the successful run attempts the memo write exactly
once and records the memo against BELEGNR "B1" with the joined log. -/
theorem memo_finally_spec_witness :
    (run envOk).memoAttempts = 1 ∧
    WriteEvent.memo "B1" (String.intercalate "\n" (run envOk).log) ∈
      (run envOk).writes := by
  have h := memo_finally_spec envOk "memofehler"
  constructor
  · rw [h.1]
    with_unfolding_all decide
  · exact h.2.2 "B1" (by with_unfolding_all decide) (by decide) rfl

/-- Witness for C9: with the API failing, the concrete run fails and the
raw response text is in the log. -/
theorem api_failure_fail_fast_witness :
    (run env9).outcome = RunOutcome.failed ∧ "rohtext" ∈ (run env9).log := by
  have h := api_failure_fail_fast env9
      [⟨some 1, some 1, some 1, some 1, some "A1", some "B1", some "F1"⟩]
      ⟨["A1"], 1000, 10, 10, 10⟩ "boom" rfl rfl
      (by with_unfolding_all rfl) rfl
  exact ⟨h.1, h.2.1⟩

/-- Witness for C10: with the tracking number extracted but no FSROWID,
the concrete run fails and logs the skip warning. -/
theorem missing_fsrowid_aborts_witness :
    (run env10).outcome = RunOutcome.failed ∧
    "Warnung: Keine FSROWID verfuegbar, Datenbankeintraege uebersprungen."
      ∈ (run env10).log := by
  have h := missing_fsrowid_aborts env10
      [⟨some 1, some 1, some 1, some 1, some "A1", some "B1", none⟩]
      ⟨["A1"], 1000, 10, 10, 10⟩ (Json.str "https://dl/label.pdf")
      [some "Ref 123456789012 End"] "123456789012"
      rfl rfl (by with_unfolding_all rfl) rfl rfl rfl (by decide) rfl
      (by decide) (by decide)
  exact ⟨h.1, h.2.1⟩

/-- A concrete pair of rows: weight 5 with code "A1", and a row with every
value absent. -/
def rows15 : List OrderRow :=
  [⟨some 5, some 1, some 1, some 1, some "A1", some "B1", some "F1"⟩,
   ⟨none, none, none, none, none, none, none⟩]

/-- The aggregate the code produces from `rows15`. -/
def agg15 : AggregatedShipment := ⟨["A1"], 15000, 110, 110, 110⟩

/-- C1: for every non-empty list of order rows, each aggregated
measurement equals the exact-decimal sum of that field over all rows
(an absent value contributing the decimal 10), scaled (weight by 1000,
the dimensions by 10), then rounded to the nearest integer with
round-half-up, ties rounding away from zero. -/
theorem aggregate_measurements_follow_decimal_sum_spec
    (rows : List OrderRow) (agg : AggregatedShipment)
    (h : aggregate_order_values rows = Except.ok agg) :
    agg.weight_gram = specMeasurement rows (fun r => r.weight) 1000 ∧
    agg.width_cm = specMeasurement rows (fun r => r.width) 10 ∧
    agg.height_cm = specMeasurement rows (fun r => r.height) 10 ∧
    agg.length_cm = specMeasurement rows (fun r => r.length) 10 ∧
    (∀ q : ℚ, |(roundHalfUp q : ℚ) - q| ≤ 1/2) ∧
    (∀ n : ℕ, roundHalfUp ((n : ℚ) + 1/2) = n + 1 ∧
      roundHalfUp (-((n : ℚ) + 1/2)) = -((n : ℤ) + 1)) := by
  unfold aggregate_order_values at h
  split_ifs at h with h1 h2
  rw [Except.ok.injEq] at h
  subst h
  refine ⟨?_, ?_, ?_, ?_, roundHalfUp_nearest,
    fun n => ⟨roundHalfUp_tie_away_pos n, ?_⟩⟩ <;>
    first
      | exact sum_field_eq_specMeasurement ..
      | (have h9 := roundHalfUp_tie_away_neg n; push_cast at h9 ⊢; linarith)

/-- Witness for C1: two rows with weights 5 and absent give the
pre-scale decimal sum 15 and the aggregated weight 15000 grams. -/
theorem aggregate_measurements_follow_decimal_sum_spec_witness :
    aggregate_order_values rows15 = Except.ok agg15 ∧
    agg15.weight_gram = specMeasurement rows15 (fun r => r.weight) 1000 ∧
    (rows15.map fun r => (r.weight).getD 10).sum = 15 ∧
    agg15.weight_gram = 15000 := by
  have h : aggregate_order_values rows15 = Except.ok agg15 := by
    with_unfolding_all rfl
  exact ⟨h, (aggregate_measurements_follow_decimal_sum_spec rows15 agg15 h).1,
    by with_unfolding_all decide, by with_unfolding_all decide⟩

/-- C4: the aggregated list of unit identifier codes is exactly the rows'
codes in row order (hence order of first appearance is preserved), each
trimmed, with blank-after-trim or absent values discarded. -/
theorem aggregate_codes_first_appearance_order
    (rows : List OrderRow) (agg : AggregatedShipment)
    (h : aggregate_order_values rows = Except.ok agg) :
    agg.ids_order_units = specCodes rows := by
  unfold aggregate_order_values at h
  split_ifs at h with h1 h2
  rw [Except.ok.injEq] at h
  subst h
  exact collect_code_values_eq_specCodes rows

/-- Witness for C4: codes " A1 " (trimmed), an absent code, a blank code
and "A2" collect to ["A1", "A2"] in row order. -/
theorem aggregate_codes_first_appearance_order_witness :
    aggregate_order_values
        [⟨some 1, none, none, none, some " A1 ", none, none⟩,
         ⟨none, none, none, none, none, none, none⟩,
         ⟨none, none, none, none, some "  ", none, none⟩,
         ⟨none, none, none, none, some "A2", none, none⟩] =
      Except.ok ⟨["A1", "A2"], 31000, 400, 400, 400⟩ ∧
    (⟨["A1", "A2"], 31000, 400, 400, 400⟩ :
        AggregatedShipment).ids_order_units =
      specCodes
        [⟨some 1, none, none, none, some " A1 ", none, none⟩,
         ⟨none, none, none, none, none, none, none⟩,
         ⟨none, none, none, none, some "  ", none, none⟩,
         ⟨none, none, none, none, some "A2", none, none⟩] := by
  have h : aggregate_order_values
      [⟨some 1, none, none, none, some " A1 ", none, none⟩,
       ⟨none, none, none, none, none, none, none⟩,
       ⟨none, none, none, none, some "  ", none, none⟩,
       ⟨none, none, none, none, some "A2", none, none⟩] =
      Except.ok ⟨["A1", "A2"], 31000, 400, 400, 400⟩ := by
    with_unfolding_all rfl
  exact ⟨h, aggregate_codes_first_appearance_order _ _ h⟩

/-- C5: `aggregate_order_values` fails exactly when the row list is empty
or no row carries a non-blank unit identifier code; on every other input
it returns an `AggregatedShipment`. -/
theorem aggregate_validation_error_iff (rows : List OrderRow) :
    ((∃ e, aggregate_order_values rows = Except.error e) ↔
      rows = [] ∨ ∀ r ∈ rows, ((r.code1.getD "").trim) = "") ∧
    ((∃ agg, aggregate_order_values rows = Except.ok agg) ↔
      ¬(rows = [] ∨ ∀ r ∈ rows, ((r.code1.getD "").trim) = "")) := by
  unfold aggregate_order_values
  split_ifs with h1 h2
  · rw [List.isEmpty_iff] at h1
    simp [h1]
  · rw [List.isEmpty_iff] at h1
    rw [List.isEmpty_iff, collect_code_values_eq_nil_iff] at h2
    refine ⟨⟨fun _ => Or.inr h2, fun _ => ⟨_, rfl⟩⟩, ?_, ?_⟩
    · rintro ⟨agg, hagg⟩
      exact absurd hagg (by simp)
    · intro hcon
      exact absurd (Or.inr h2) hcon
  · rw [List.isEmpty_iff] at h1
    rw [List.isEmpty_iff, collect_code_values_eq_nil_iff] at h2
    simp [h1, h2]

/-- Witness for C5: the empty row list is rejected with a
`ValidationError`. -/
theorem aggregate_validation_error_iff_witness :
    (∃ e, aggregate_order_values ([] : List OrderRow) = Except.error e) ∧
    aggregate_order_values ([] : List OrderRow) =
      Except.error "Keine Auftragsdaten vorhanden" :=
  ⟨(aggregate_validation_error_iff ([] : List OrderRow)).1.mpr (Or.inl rfl),
   by with_unfolding_all rfl⟩

